import Mathlib

/-!
Verification development for the status-fronted repository.

The development shallowly embeds the data-fetching and reconciliation logic
of the dashboard:

* `src/lib/api-client.ts` — the transport (`ApiClient.fetchWithRetry`, with
  timeout/retry/backoff), the typed `ApiError`, and the three fetch
  operations (`fetchAllClients`, `fetchClientDetail`, `fetchClientHistory`);
* `src/lib/error-handler.ts` — the error classifier `handleApiError`;
* the incremental-clients hook (`useIncrementalClients`), i.e. the
  reconciliation engine: `hasClientChanged`, the per-poll diff, the sort by
  `priority`, and the loading/error state transitions;
* `src/app/page.tsx` — the derived offline detection
  (`isClientOffline` / `applyOfflineDetection`).

JavaScript runtime values are embedded as follows: strings as `String`,
numbers as `Int` (or `Nat` where the source only ever sees naturals),
`Map` as an insertion-ordered association list, `Set` as an
insertion-ordered duplicate-free list, thrown values as explicit error
data, and `async` control flow as pure functions over an oracle giving the
outcome of each network attempt.
-/

/-! ## JavaScript string helpers

`String.prototype.includes` and `String.prototype.trim`, embedded as
executable functions over the character list of the string. -/

/-- Does the character list start with `p`? (helper for `jsIncludes`). -/
def charsHavePrefix : List Char → List Char → Bool
  | [], _ => true
  | _ :: _, [] => false
  | p :: ps, c :: cs => p == c && charsHavePrefix ps cs

/-- Does the character list contain `sub` as a contiguous run? -/
def charsContain (sub : List Char) : List Char → Bool
  | [] => charsHavePrefix sub []
  | c :: cs => charsHavePrefix sub (c :: cs) || charsContain sub cs

/-- JavaScript `s.includes(sub)`. -/
def jsIncludes (s sub : String) : Bool := charsContain sub.data s.data

/-- JavaScript `s.trim()`: strip whitespace from both ends. -/
def jsTrim (s : String) : String :=
  ⟨((s.data.dropWhile Char.isWhitespace).reverse.dropWhile Char.isWhitespace).reverse⟩

/-! ## `ApiError` (src/lib/api-client.ts)

`class ApiError extends Error { constructor(message, statusCode?, originalError?) }`.
The `originalError` payload is only ever logged, never inspected, so it is
dropped from the embedding. `statusCode` is optional, hence `Option Nat`. -/

structure ApiError where
  message : String
  statusCode : Option Nat
deriving DecidableEq, Repr

/-! ## HTTP error message (src/lib/api-client.ts, non-ok branch)

On `!response.ok` the source reads the body text, initialises the message to
`HTTP <status>: <statusText>`, then tries `JSON.parse(errorText)`:
on parse success it takes `errorJson.message || errorMessage`, on parse
failure it takes `errorText || errorMessage`.  `JSON.parse` is an external
builtin, so a body is embedded together with its parse outcome: either the
text does not parse as JSON, or it parses and its `message` field is the
given optional string (`none` when the field is absent; the field being the
empty string is JavaScript-falsy and is modelled by `some ""`). -/

inductive ResponseBody where
  /-- Body text that does not parse as JSON. -/
  | notJson (text : String)
  /-- Body text that parses as JSON whose `message` field is `message?`. -/
  | parsedJson (text : String) (message : Option String)
deriving DecidableEq, Repr

/-- The raw body text of a response body. -/
def ResponseBody.text : ResponseBody → String
  | .notJson t => t
  | .parsedJson t _ => t

/-- The error message the source builds for a non-2xx response. -/
def httpErrorMessage (status : Nat) (statusText : String) (body : ResponseBody) : String :=
  let generic := "HTTP " ++ toString status ++ ": " ++ statusText
  match body with
  | .parsedJson _ (some m) => if m = "" then generic else m
  | .parsedJson _ none => generic
  | .notJson t => if t = "" then generic else t

/-! ## fetchWithRetry (src/lib/api-client.ts)

One network attempt either yields an ok JSON response, a non-2xx response
(the source then throws an `ApiError` inside the `try`, which its own
`catch` re-throws unchanged — embedded directly as the `httpErr` case), or
throws: an `AbortError` (the timeout fired), a `TypeError` whose message
contains `fetch` (network-level failure), or some other error.  The
behaviour of the network across attempts is an oracle `attempts : Nat →
FetchResult T` giving the outcome of the attempt with retry index `n`. -/

inductive FetchResult (T : Type) where
  | ok (v : T)
  | httpErr (status : Nat) (statusText : String) (body : ResponseBody)
  | abortErr
  | typeErrFetch
  | otherErr (message : String)
deriving DecidableEq, Repr

/-- Recursion core of `fetchWithRetry`, structural on explicit fuel so that
it kernel-evaluates; the fuel stands for the recursion depth still
available and never runs out when the entry point supplies
`maxRetries + 1` (each recursive call is guarded by
`retryCount < maxRetries` and increments `retryCount`).  Returns the
result together with the total backoff delay inserted
(`retryDelay * 2 ^ retryCount` before each retry, as in the source call
`this.delay(this.retryDelay * Math.pow(2, retryCount))`) and the number of
network calls performed. -/
def fetchRetryFuel {T : Type} (maxRetries retryDelay : Nat)
    (attempts : Nat → FetchResult T) : Nat → Nat → Except ApiError T × Nat × Nat
  | fuel, retryCount =>
    match attempts retryCount with
    | .ok v => (.ok v, 0, 1)
    | .httpErr s st body => (.error ⟨httpErrorMessage s st body, some s⟩, 0, 1)
    | .abortErr =>
      match fuel with
      | fuel' + 1 =>
        if retryCount < maxRetries then
          let r := fetchRetryFuel maxRetries retryDelay attempts fuel' (retryCount + 1)
          (r.1, retryDelay * 2 ^ retryCount + r.2.1, 1 + r.2.2)
        else (.error ⟨"Request timeout", none⟩, 0, 1)
      | 0 => (.error ⟨"Request timeout", none⟩, 0, 1)
    | .typeErrFetch =>
      match fuel with
      | fuel' + 1 =>
        if retryCount < maxRetries then
          let r := fetchRetryFuel maxRetries retryDelay attempts fuel' (retryCount + 1)
          (r.1, retryDelay * 2 ^ retryCount + r.2.1, 1 + r.2.2)
        else (.error ⟨"Network error: Unable to connect to server", none⟩, 0, 1)
      | 0 => (.error ⟨"Network error: Unable to connect to server", none⟩, 0, 1)
    | .otherErr msg => (.error ⟨msg, none⟩, 0, 1)

/-- `fetchWithRetry(url, options)` — the public entry starts at
`retryCount = 0`; fuel `maxRetries + 1` is enough for the whole retry
budget. -/
def fetchWithRetry {T : Type} (maxRetries retryDelay : Nat)
    (attempts : Nat → FetchResult T) : Except ApiError T × Nat × Nat :=
  fetchRetryFuel maxRetries retryDelay attempts (maxRetries + 1) 0

/-! ## Error classifier (src/lib/error-handler.ts) -/

inductive ErrorType where
  | network
  | timeout
  | notFound
  | validation
  | server
  | unknown
deriving DecidableEq, Repr

structure UserFriendlyError where
  type : ErrorType
  title : String
  message : String
  canRetry : Bool
deriving DecidableEq, Repr

/-- A raised JavaScript value as `handleApiError` distinguishes them:
an `ApiError` instance, some other `Error` instance (with its message), or
a non-`Error` value. -/
inductive JsError where
  | apiErr (e : ApiError)
  | genericErr (message : String)
  | nonError
deriving DecidableEq, Repr

/-- JavaScript truthiness of `error.statusCode` (a number or `undefined`):
`undefined` and `0` are falsy. -/
def statusCodeTruthy : Option Nat → Bool
  | none => false
  | some n => n ≠ 0

/-- JavaScript `error.message || fallback`. -/
def messageOr (message fallback : String) : String :=
  if message = "" then fallback else message

/-- `handleApiError(error)` from src/lib/error-handler.ts, branch for
branch. -/
def handleApiError (error : JsError) : UserFriendlyError :=
  match error with
  | .apiErr e =>
    if jsIncludes e.message "Network error" || jsIncludes e.message "Unable to connect" then
      { type := .network
        title := "Network Connection Failed"
        message := "Unable to connect to the server. Please check your network connection or server status"
        canRetry := true }
    else if jsIncludes e.message "timeout" then
      { type := .timeout
        title := "Request Timeout"
        message := "Server response time is too long. Please try again later"
        canRetry := true }
    else if e.statusCode = some 404 then
      { type := .notFound
        title := "Resource Not Found"
        message := "The requested client or resource does not exist"
        canRetry := false }
    else if e.statusCode = some 400 then
      { type := .validation
        title := "Request Parameter Error"
        message := messageOr e.message "Request parameters are incorrect. Please check your input"
        canRetry := false }
    else if statusCodeTruthy e.statusCode && (e.statusCode.getD 0) ≥ 500 then
      { type := .server
        title := "Server Error"
        message := "Server encountered an error. Please try again later"
        canRetry := true }
    else
      { type := .unknown
        title := "Request Failed"
        message := messageOr e.message "An unknown error occurred"
        canRetry := true }
  | .genericErr message =>
      { type := .unknown
        title := "Error Occurred"
        message := messageOr message "An unknown error occurred"
        canRetry := false }
  | .nonError =>
      { type := .unknown
        title := "Error Occurred"
        message := "An unknown error occurred, please try again later"
        canRetry := false }

/-! ## Fetch facade parameter validation and history query
(src/lib/api-client.ts) -/

/-- The guard shared by `fetchClientDetail` and `fetchClientHistory`:
`if (!clientId || clientId.trim() is empty) throw new ApiError("Client ID is required")`.
Returns the thrown error, or `none` when the call proceeds to the network. -/
def validateClientId (clientId : String) : Option ApiError :=
  if clientId = "" || jsTrim clientId = "" then some ⟨"Client ID is required", none⟩ else none

/-- JavaScript truthiness of `query?.startTime` / `query?.endTime`
(an optional number): `undefined` and `0` are falsy. -/
def timeBoundTruthy : Option Int → Bool
  | none => false
  | some n => n ≠ 0

/-- The `URLSearchParams` built by `fetchClientHistory`: `startTime` and
`endTime` are appended only when truthy, each as its decimal string. -/
def historyParams (startTime endTime : Option Int) : List (String × String) :=
  (match startTime with
   | some n => if n ≠ (0 : Int) then [("startTime", toString n)] else []
   | none => []) ++
  (match endTime with
   | some n => if n ≠ (0 : Int) then [("endTime", toString n)] else []
   | none => [])

/-- `URLSearchParams.toString()`: `k=v` pairs joined by `&` (the
percent-encoding it applies is the identity on the decimal number strings
used here). -/
def queryToString (params : List (String × String)) : String :=
  String.intercalate "&" (params.map fun p => p.1 ++ "=" ++ p.2)

/-- The URL built by `fetchClientHistory`; `enc` abstracts the
`encodeURIComponent` builtin. -/
def historyUrl (enc : String → String) (baseUrl clientId : String)
    (startTime endTime : Option Int) : String :=
  let queryString := queryToString (historyParams startTime endTime)
  baseUrl ++ "/api/clients/" ++ enc clientId ++ "/history" ++
    (if queryString = "" then "" else "?" ++ queryString)

/-! ## ClientSummary and change detection (src/lib/api-client.ts and the
incremental-clients hook)

`status` is the union of the literals online and offline.  `priority` is the numeric
field that the sort comparator of the hook reads (`a.priority - b.priority`); the
comparator is only well-defined when it is a number on every entry, so the
embedding makes it a required `Int` (the `ClientSummary` interface itself
does not declare it). -/

inductive ClientStatus where
  | online
  | offline
deriving DecidableEq, Repr

structure ClientSummary where
  clientId : String
  clientName : String
  clientTags : List String
  clientPurpose : String
  hostname : String
  platform : String
  status : ClientStatus
  lastUpdate : Int
  createdAt : Int
  lastOnlineAt : Option Int
  priority : Int
deriving DecidableEq, Repr

/-- `hasClientChanged(oldClient, newClient)` from the hook.  The source
compares `clientTags` via `JSON.stringify`; `JSON.stringify` is injective
on arrays of strings, so that comparison is list equality. -/
def hasClientChanged (oldClient newClient : ClientSummary) : Bool :=
  oldClient.status != newClient.status ||
  oldClient.lastUpdate != newClient.lastUpdate ||
  oldClient.clientName != newClient.clientName ||
  oldClient.clientTags != newClient.clientTags ||
  oldClient.clientPurpose != newClient.clientPurpose

/-! ## JavaScript Map and Set, as the hook uses them

A `Map` is an insertion-ordered association list; `set` updates the value
in place when the key exists (keeping its position) and appends otherwise;
iteration (`keys()` / `values()` / `Array.from`) follows insertion order.
A `Set` of strings is an insertion-ordered duplicate-free list. -/

def jsMapSet {α : Type} : List (String × α) → String → α → List (String × α)
  | [], k, v => [(k, v)]
  | (k', v') :: rest, k, v =>
    if k' = k then (k, v) :: rest else (k', v') :: jsMapSet rest k v

def jsMapGet {α : Type} : List (String × α) → String → Option α
  | [], _ => none
  | (k', v) :: rest, k => if k' = k then some v else jsMapGet rest k

def jsMapKeys {α : Type} (m : List (String × α)) : List String := m.map (·.1)

def jsMapValues {α : Type} (m : List (String × α)) : List α := m.map (·.2)

def jsSetAdd (s : List String) (x : String) : List String :=
  if x ∈ s then s else s ++ [x]

/-! ## The incremental-clients hook state -/

/-- The `IncrementalState` of the hook: the known-clients map, the loading flag,
the surfaced classified error, and the last successful poll time. -/
structure IncrementalState where
  clients : List (String × ClientSummary)
  loading : Bool
  error : Option UserFriendlyError
  lastUpdate : Int
deriving DecidableEq, Repr

/-- The `useState` initialiser of the hook. -/
def initialState : IncrementalState :=
  { clients := [], loading := false, error := none, lastUpdate := 0 }

/-- `newClients.sort((a, b) => a.priority - b.priority)`:
`Array.prototype.sort` is stable and the comparator orders by `priority`
ascending, which is exactly stable insertion sort by `priority ≤`. -/
def sortByPriority (l : List ClientSummary) : List ClientSummary :=
  List.insertionSort (fun a b => a.priority ≤ b.priority) l

/-- One step of the `newClients.forEach` body: `updatedClients.set(...)`,
and `changedIds.add(...)` when the id is new to `prev.clients` or
`hasClientChanged` holds.  `prevClients` is the map captured from the
previous state; the fold accumulator pairs the map under construction with
the changed-id set. -/
def diffStep (prevClients : List (String × ClientSummary))
    (acc : List (String × ClientSummary) × List String) (newClient : ClientSummary) :
    List (String × ClientSummary) × List String :=
  let updated := jsMapSet acc.1 newClient.clientId newClient
  match jsMapGet prevClients newClient.clientId with
  | none => (updated, jsSetAdd acc.2 newClient.clientId)
  | some existingClient =>
    if hasClientChanged existingClient newClient then
      (updated, jsSetAdd acc.2 newClient.clientId)
    else (updated, acc.2)

/-- The diff pass of a successful poll, given the previous known map and
the (already priority-sorted) incoming snapshot: build `updatedClients`
and `changedIds` over the snapshot, then add every previously-known id
absent from the snapshot (removal) to `changedIds`.  Returns the new map
and the changed-id set. -/
def pollUpdate (prevClients : List (String × ClientSummary))
    (newClients : List ClientSummary) :
    List (String × ClientSummary) × List String :=
  let sorted := sortByPriority newClients
  let newIds := sorted.map (·.clientId)
  let afterAdds := sorted.foldl (diffStep prevClients) ([], [])
  let changedIds := (jsMapKeys prevClients).foldl
    (fun s id => if id ∈ newIds then s else jsSetAdd s id) afterAdds.2
  (afterAdds.1, changedIds)

/-- The `setState` at the top of `fetchClients`: `loading` becomes
`isInitialLoad` (`prev.clients.size === 0`), `error` is cleared; the
clients map is untouched. -/
def fetchStart (prev : IncrementalState) : IncrementalState :=
  { prev with loading := prev.clients.length = 0, error := none }

/-- The `setState` of the success path of `fetchClients`: the freshly built
map replaces `clients` wholesale, `loading` and `error` are cleared,
`lastUpdate` is set to `now`.  Returns the new state and the changed-id
set stored into `changedClientsRef`. -/
def pollSuccess (prev : IncrementalState) (snapshot : List ClientSummary)
    (now : Int) : IncrementalState × List String :=
  let d := pollUpdate prev.clients snapshot
  ({ clients := d.1, loading := false, error := none, lastUpdate := now }, d.2)

/-- The `catch` path of `fetchClients`: classify the error, keep the
clients map and `lastUpdate`, clear `loading`, store the classification.
`changedClientsRef` is not touched on this path. -/
def pollFailure (prev : IncrementalState) (error : JsError) : IncrementalState :=
  { prev with loading := false, error := some (handleApiError error) }

/-- `Array.from(state.clients.values())`, the collection the hook hands to
consumers. -/
def clientsArray (st : IncrementalState) : List ClientSummary :=
  jsMapValues st.clients

/-- The transport-level network failure
(a `new ApiError` whose message is the string stored in this value). -/
def networkFailure : JsError :=
  .apiErr ⟨"Network error: Unable to connect to server", none⟩

/-! ## Engine runs: observing overlapping polls

`fetchClients` is an async closure: a call runs `fetchStart` synchronously
and then unconditionally awaits `apiClient.fetchAllClients()` — there is no
check of `prev.loading` or of any in-flight flag anywhere on the path (nor
in the `handleRefresh` / interval-timer callers in src/app/page.tsx; the
refresh button is merely disabled while `isRefreshing` is true).  To state
claims about overlap, a run records the hook state, the
`changedClientsRef` content, how many polls are outstanding, and how many
network calls have been issued. -/

structure EngineRun where
  state : IncrementalState
  changedRef : List String
  outstanding : Nat
  networkCalls : Nat
deriving DecidableEq, Repr

/-- The engine before any poll: initial hook state, empty
`changedClientsRef`, nothing in flight. -/
def initialRun : EngineRun :=
  { state := initialState, changedRef := [], outstanding := 0, networkCalls := 0 }

/-- Calling `fetchClients()`: the start `setState` runs and a network call
is issued, unconditionally. -/
def triggerPoll (run : EngineRun) : EngineRun :=
  { run with
      state := fetchStart run.state
      outstanding := run.outstanding + 1
      networkCalls := run.networkCalls + 1 }

/-- An outstanding poll resolves successfully with `snapshot` at time
`now`: the success `setState` runs and `changedClientsRef` is replaced. -/
def completeSuccess (run : EngineRun) (snapshot : List ClientSummary)
    (now : Int) : EngineRun :=
  { run with
      state := (pollSuccess run.state snapshot now).1
      changedRef := (pollSuccess run.state snapshot now).2
      outstanding := run.outstanding - 1 }

/-- An outstanding poll rejects with `error`: the failure `setState` runs;
`changedClientsRef` is untouched. -/
def completeFailure (run : EngineRun) (error : JsError) : EngineRun :=
  { run with
      state := pollFailure run.state error
      outstanding := run.outstanding - 1 }

/-! ## Offline detection (src/app/page.tsx)

`OFFLINE_TIMEOUT_MS = 5 * 60 * 1000`; `isClientOffline` reads `Date.now()`,
embedded as the explicit argument `now`. -/

def OFFLINE_TIMEOUT_MS : Int := 5 * 60 * 1000

/-- `isClientOffline(lastUpdate)`: `now - lastUpdate > OFFLINE_TIMEOUT_MS`. -/
def isClientOffline (now lastUpdate : Int) : Bool :=
  now - lastUpdate > OFFLINE_TIMEOUT_MS

/-- `applyOfflineDetection(clients)`: recompute the `status` of every entry from
its `lastUpdate`, discarding the producer-supplied value. -/
def applyOfflineDetection (now : Int) (clients : List ClientSummary) :
    List ClientSummary :=
  clients.map fun client =>
    { client with
        status := if isClientOffline now client.lastUpdate then .offline else .online }

/-! ## Concrete sample data used by witnesses -/

/-- A client record with the given id and priority and fixed remaining
fields. -/
def demoClient (id : String) (p : Int) : ClientSummary :=
  { clientId := id, clientName := id, clientTags := [], clientPurpose := ""
    hostname := "", platform := "", status := .online, lastUpdate := 0
    createdAt := 0, lastOnlineAt := none, priority := p }

/-- Modelled from the spec: the message-precedence rule the spec states for
non-2xx responses — the `message` field of the JSON body if present, else the
raw body text, else the generic `HTTP <code>: <statusText>` string.  Stated
here only to be compared against `httpErrorMessage`, which is the rule the
source actually implements. -/
def claimedHttpMessage (status : Nat) (statusText : String) (body : ResponseBody) : String :=
  match body with
  | .parsedJson _ (some m) => m
  | .parsedJson t none =>
      if t = "" then "HTTP " ++ toString status ++ ": " ++ statusText else t
  | .notJson t =>
      if t = "" then "HTTP " ++ toString status ++ ": " ++ statusText else t

/-! ## Helper lemmas about the JavaScript collection embeddings -/

theorem hasClientChanged_self (c : ClientSummary) : hasClientChanged c c = false := by
  simp [hasClientChanged]

theorem diffStep_fst (prev : List (String × ClientSummary))
    (acc : List (String × ClientSummary) × List String) (c : ClientSummary) :
    (diffStep prev acc c).1 = jsMapSet acc.1 c.clientId c := by
  rcases h : jsMapGet prev c.clientId with _ | e
  · simp [diffStep, h]
  · by_cases hc : hasClientChanged e c <;> simp [diffStep, h, hc]

theorem foldl_diffStep_fst (prev : List (String × ClientSummary)) :
    ∀ (l : List ClientSummary) (p : List (String × ClientSummary) × List String),
      (l.foldl (diffStep prev) p).1 =
        l.foldl (fun acc c => jsMapSet acc c.clientId c) p.1
  | [], _ => rfl
  | a :: l, p => by
      rw [List.foldl_cons, List.foldl_cons, foldl_diffStep_fst prev l, diffStep_fst]

theorem foldl_diffStep_snd_unchanged (prev : List (String × ClientSummary)) :
    ∀ (l : List ClientSummary),
      (∀ c ∈ l, jsMapGet prev c.clientId = some c) →
      ∀ p : List (String × ClientSummary) × List String,
        (l.foldl (diffStep prev) p).2 = p.2
  | [], _, _ => rfl
  | a :: l, h, p => by
      rw [List.foldl_cons,
        foldl_diffStep_snd_unchanged prev l (fun c hc => h c (List.mem_cons_of_mem _ hc))]
      have ha := h a (List.mem_cons_self _ _)
      simp [diffStep, ha, hasClientChanged_self]

theorem jsMapKeys_append {α : Type} (m m' : List (String × α)) :
    jsMapKeys (m ++ m') = jsMapKeys m ++ jsMapKeys m' := by
  simp [jsMapKeys]

theorem jsMapSet_append {α : Type} :
    ∀ (m : List (String × α)) (k : String) (v : α),
      k ∉ jsMapKeys m → jsMapSet m k v = m ++ [(k, v)]
  | [], _, _, _ => rfl
  | (k', v') :: m, k, v, hk => by
      have h1 : ¬ k' = k := by
        intro h; exact hk (by rw [h]; exact List.mem_cons_self _ _)
      have h2 : k ∉ jsMapKeys m := fun h => hk (List.mem_cons_of_mem _ h)
      simp [jsMapSet, h1, jsMapSet_append m k v h2]

theorem foldl_jsMapSet_map :
    ∀ (l : List ClientSummary) (m : List (String × ClientSummary)),
      (∀ c ∈ l, c.clientId ∉ jsMapKeys m) → (l.map (·.clientId)).Nodup →
      l.foldl (fun acc c => jsMapSet acc c.clientId c) m =
        m ++ l.map (fun c => (c.clientId, c))
  | [], m, _, _ => by simp
  | a :: l, m, hm, hnd => by
      rw [List.foldl_cons, jsMapSet_append m a.clientId a (hm a (List.mem_cons_self _ _))]
      have hnd2 : (a.clientId :: l.map (·.clientId)).Nodup := hnd
      have hnd' := (List.nodup_cons.mp hnd2).2
      have hane : a.clientId ∉ l.map (·.clientId) := (List.nodup_cons.mp hnd2).1
      rw [foldl_jsMapSet_map l (m ++ [(a.clientId, a)]) ?_ hnd']
      · simp
      · intro c hc
        rw [jsMapKeys_append]
        intro hmem
        rcases List.mem_append.mp hmem with h | h
        · exact hm c (List.mem_cons_of_mem _ hc) h
        · have : c.clientId = a.clientId := by simpa [jsMapKeys] using h
          exact hane (this ▸ List.mem_map_of_mem _ hc)

theorem jsMapGet_map_self :
    ∀ (l : List ClientSummary), (l.map (·.clientId)).Nodup →
      ∀ c ∈ l, jsMapGet (l.map fun c => (c.clientId, c)) c.clientId = some c
  | [], _, c, hc => by cases hc
  | a :: l, hnd, c, hc => by
      rw [List.map_cons]
      rcases List.mem_cons.mp hc with rfl | hc'
      · simp [jsMapGet]
      · have hnd2 : (a.clientId :: l.map (·.clientId)).Nodup := hnd
        have hane : a.clientId ∉ l.map (·.clientId) := (List.nodup_cons.mp hnd2).1
        have hne : ¬ a.clientId = c.clientId := by
          intro h; exact hane (h ▸ List.mem_map_of_mem _ hc')
        have hnd' := (List.nodup_cons.mp hnd2).2
        simp only [jsMapGet, if_neg hne]
        exact jsMapGet_map_self l hnd' c hc'

theorem sortByPriority_perm (ns : List ClientSummary) : (sortByPriority ns).Perm ns :=
  List.perm_insertionSort _ ns

theorem sortByPriority_ids_nodup (ns : List ClientSummary)
    (h : (ns.map (·.clientId)).Nodup) :
    ((sortByPriority ns).map (·.clientId)).Nodup :=
  (((sortByPriority_perm ns).map (·.clientId)).nodup_iff).mpr h

theorem pollUpdate_fst (prev : List (String × ClientSummary)) (ns : List ClientSummary) :
    (pollUpdate prev ns).1 =
      (sortByPriority ns).foldl (fun acc c => jsMapSet acc c.clientId c) [] := by
  simpa [pollUpdate] using foldl_diffStep_fst prev (sortByPriority ns) ([], [])

theorem pollUpdate_fst_map (prev : List (String × ClientSummary)) (ns : List ClientSummary)
    (hnd : (ns.map (·.clientId)).Nodup) :
    (pollUpdate prev ns).1 = (sortByPriority ns).map (fun c => (c.clientId, c)) := by
  rw [pollUpdate_fst]
  simpa using foldl_jsMapSet_map (sortByPriority ns) []
    (by simp [jsMapKeys]) (sortByPriority_ids_nodup ns hnd)

theorem foldl_removals_id (newIds : List String) :
    ∀ (ids : List String), (∀ i ∈ ids, i ∈ newIds) →
      ∀ s : List String,
        ids.foldl (fun s id => if id ∈ newIds then s else jsSetAdd s id) s = s
  | [], _, s => rfl
  | i :: ids, h, s => by
      rw [List.foldl_cons, if_pos (h i (List.mem_cons_self _ _))]
      exact foldl_removals_id newIds ids (fun j hj => h j (List.mem_cons_of_mem _ hj)) s

theorem pollUpdate_self_changed_nil (ns : List ClientSummary)
    (hnd : (ns.map (·.clientId)).Nodup) :
    (pollUpdate ((sortByPriority ns).map fun c => (c.clientId, c)) ns).2 = [] := by
  have hnd' := sortByPriority_ids_nodup ns hnd
  have hget := jsMapGet_map_self (sortByPriority ns) hnd'
  have hsnd := foldl_diffStep_snd_unchanged
    ((sortByPriority ns).map fun c => (c.clientId, c)) (sortByPriority ns) hget ([], [])
  have hkeys : jsMapKeys ((sortByPriority ns).map fun c => (c.clientId, c)) =
      (sortByPriority ns).map (·.clientId) := by
    simp [jsMapKeys]
  simp only [pollUpdate, hsnd, hkeys]
  exact foldl_removals_id _ _ (fun i hi => hi) []

theorem sortByPriority_filter (p : Int) :
    ∀ ns : List ClientSummary,
      (sortByPriority ns).filter (fun c => c.priority = p) =
        ns.filter (fun c => c.priority = p)
  | [] => rfl
  | a :: l => by
      have ih := sortByPriority_filter p l
      unfold sortByPriority at ih ⊢
      rw [List.insertionSort, List.orderedInsert_eq_take_drop, List.filter_append]
      set T := List.insertionSort (fun a b => a.priority ≤ b.priority) l with hT
      have hTd : T.filter (fun c => c.priority = p) =
          (T.takeWhile fun b => decide ¬ a.priority ≤ b.priority).filter
              (fun c => c.priority = p) ++
            (T.dropWhile fun b => decide ¬ a.priority ≤ b.priority).filter
              (fun c => c.priority = p) := by
        rw [← List.filter_append, List.takeWhile_append_dropWhile]
      by_cases hp : a.priority = p
      · have htw : (T.takeWhile fun b => decide ¬ a.priority ≤ b.priority).filter
            (fun c => c.priority = p) = [] := by
          rw [List.filter_eq_nil_iff]
          intro b hb
          have hlt := List.mem_takeWhile_imp hb
          simp only [decide_eq_true_eq] at hlt
          simp only [decide_eq_true_eq]
          omega
        rw [List.filter_cons_of_pos (by simp [hp]), htw,
          List.filter_cons_of_pos (by simp [hp]), List.nil_append]
        have : (T.dropWhile fun b => decide ¬ a.priority ≤ b.priority).filter
            (fun c => c.priority = p) = l.filter (fun c => c.priority = p) := by
          rw [← ih, hTd, htw, List.nil_append]
        rw [this]
      · rw [List.filter_cons_of_neg (by simp [hp]),
          List.filter_cons_of_neg (by simp [hp]), ← hTd, ih]

/-! ## Claims -/

/-- Claim C1, as stated, is false on the code: with a poll outstanding (the
engine is in its loading phase), triggering another poll is NOT a no-op —
`fetchClients` has no in-flight guard, so the second trigger issues a
second network call.  Starting from the initial engine and triggering once,
one poll is outstanding and the loading flag is set; a second trigger
raises the network-call count from 1 to 2. -/
theorem c1_counterexample :
    (triggerPoll initialRun).outstanding = 1 ∧
    (triggerPoll initialRun).state.loading = true ∧
    (triggerPoll (triggerPoll initialRun)).networkCalls = 2 ∧
    ¬ (triggerPoll (triggerPoll initialRun)).networkCalls =
        (triggerPoll initialRun).networkCalls := by
  decide

/-- Claim C1 amended: the engine has no in-flight guard.  Triggering a poll
in ANY engine state — in particular while one is already outstanding —
unconditionally issues one more network call and leaves one more poll
outstanding (so two polls can be in flight); the trigger itself leaves the
known map and the changed-id set unchanged (it only touches the
loading/error flags). -/
theorem c1_no_inflight_guard (run : EngineRun) :
    (triggerPoll run).networkCalls = run.networkCalls + 1 ∧
    (triggerPoll run).outstanding = run.outstanding + 1 ∧
    (triggerPoll run).state.clients = run.state.clients ∧
    (triggerPoll run).changedRef = run.changedRef :=
  ⟨rfl, rfl, rfl, rfl⟩

/-- Claim C2: polling twice in a row with an identical snapshot (whose ids
are unique, the documented snapshot invariant) yields an empty changed-id
set on the second poll and leaves the known map unchanged in value. -/
theorem c2_idempotent_diff (st : IncrementalState) (ns : List ClientSummary)
    (t1 t2 : Int) (hids : (ns.map (·.clientId)).Nodup) :
    (pollSuccess (pollSuccess st ns t1).1 ns t2).2 = [] ∧
    (pollSuccess (pollSuccess st ns t1).1 ns t2).1.clients =
      (pollSuccess st ns t1).1.clients := by
  have hcl : (pollSuccess st ns t1).1.clients =
      (sortByPriority ns).map (fun c => (c.clientId, c)) := by
    show (pollUpdate st.clients ns).1 = _
    exact pollUpdate_fst_map _ _ hids
  constructor
  · show (pollUpdate (pollSuccess st ns t1).1.clients ns).2 = []
    rw [hcl]
    exact pollUpdate_self_changed_nil ns hids
  · show (pollUpdate (pollSuccess st ns t1).1.clients ns).1 =
        (pollUpdate st.clients ns).1
    rw [pollUpdate_fst, pollUpdate_fst]

/-- Witness for C2 at a concrete one-client snapshot. -/
theorem c2_idempotent_diff_witness :
    (pollSuccess (pollSuccess initialState [demoClient "a" 1] 0).1
        [demoClient "a" 1] 0).2 = [] ∧
    (pollSuccess (pollSuccess initialState [demoClient "a" 1] 0).1
        [demoClient "a" 1] 0).1.clients =
      (pollSuccess initialState [demoClient "a" 1] 0).1.clients :=
  c2_idempotent_diff initialState [demoClient "a" 1] 0 0 (by decide)

/-- Claim C3: a poll that fails with the network error of the transport leaves
the known map and the changed-id set untouched, surfaces the `network`
classification with `canRetry = true`, and a subsequent poll through the
same success path behaves exactly as it would have from the pre-failure
engine. -/
theorem c3_error_preserves_state (run : EngineRun) :
    (completeFailure (triggerPoll run) networkFailure).state.clients =
      run.state.clients ∧
    (completeFailure (triggerPoll run) networkFailure).changedRef =
      run.changedRef ∧
    (completeFailure (triggerPoll run) networkFailure).state.error =
      some { type := .network
             title := "Network Connection Failed"
             message := "Unable to connect to the server. Please check your network connection or server status"
             canRetry := true } ∧
    ∀ (snapshot : List ClientSummary) (now : Int),
      (completeSuccess (completeFailure (triggerPoll run) networkFailure)
          snapshot now).state =
        (completeSuccess run snapshot now).state ∧
      (completeSuccess (completeFailure (triggerPoll run) networkFailure)
          snapshot now).changedRef =
        (completeSuccess run snapshot now).changedRef := by
  refine ⟨rfl, rfl, ?_, fun snapshot now => ⟨rfl, rfl⟩⟩
  rfl

/-- Claim C4: `hasClientChanged` flags exactly a difference in one of
status, lastUpdate, clientName, clientTags (by value, order-sensitive) or
clientPurpose; a change only to `hostname` is not flagged; reordering
`clientTags` from `["a", "b"]` to `["b", "a"]` is flagged. -/
theorem c4_change_detection :
    (∀ o n : ClientSummary, hasClientChanged o n = true ↔
      (o.status ≠ n.status ∨ o.lastUpdate ≠ n.lastUpdate ∨
       o.clientName ≠ n.clientName ∨ o.clientTags ≠ n.clientTags ∨
       o.clientPurpose ≠ n.clientPurpose)) ∧
    (∀ (c : ClientSummary) (h : String),
      hasClientChanged c { c with hostname := h } = false) ∧
    (∀ c : ClientSummary,
      hasClientChanged { c with clientTags := ["a", "b"] }
        { c with clientTags := ["b", "a"] } = true) := by
  refine ⟨fun o n => ?_, fun c h => ?_, fun c => ?_⟩
  · simp only [hasClientChanged, Bool.or_eq_true, bne_iff_ne, ne_eq]
    tauto
  · simp [hasClientChanged]
  · simp [hasClientChanged]

/-- Claim C5: the derived status is `offline` iff `now - lastUpdate` is
strictly greater than five minutes (300000 ms); at exactly the boundary
the entry is `online`; and `applyOfflineDetection` recomputes the status
of every entry from `lastUpdate` alone, overriding the producer-supplied
`status` field. -/
theorem c5_offline_derivation :
    OFFLINE_TIMEOUT_MS = 300000 ∧
    (∀ now lastUpdate : Int,
      isClientOffline now lastUpdate = true ↔ now - lastUpdate > 300000) ∧
    (∀ now : Int, isClientOffline now (now - 300000) = false) ∧
    (∀ (now : Int) (clients : List ClientSummary),
      applyOfflineDetection now clients = clients.map fun c =>
        { c with status := if now - c.lastUpdate > 300000
                           then ClientStatus.offline else ClientStatus.online }) ∧
    (∀ (now : Int) (c : ClientSummary) (s1 s2 : ClientStatus),
      applyOfflineDetection now [{ c with status := s1 }] =
        applyOfflineDetection now [{ c with status := s2 }]) := by
  refine ⟨by decide, fun now lu => ?_, fun now => ?_, fun now cs => ?_, fun now c s1 s2 => ?_⟩
  · simp [isClientOffline, OFFLINE_TIMEOUT_MS]
  · simp [isClientOffline, OFFLINE_TIMEOUT_MS]
  · simp only [applyOfflineDetection, isClientOffline, OFFLINE_TIMEOUT_MS,
      decide_eq_true_eq]
    norm_num
  · simp [applyOfflineDetection]

/-! ## Retry/backoff lemmas -/

theorem fetchRetryFuel_allAbort {T : Type} (maxRetries retryDelay : Nat)
    (attempts : Nat → FetchResult T) (hall : ∀ i, attempts i = .abortErr) :
    ∀ (fuel retryCount : Nat),
      maxRetries ≤ retryCount + fuel → retryCount ≤ maxRetries →
      fetchRetryFuel maxRetries retryDelay attempts fuel retryCount =
        (.error ⟨"Request timeout", none⟩,
          retryDelay * (2 ^ maxRetries - 2 ^ retryCount),
          maxRetries - retryCount + 1)
  | 0, rc, h1, h2 => by
      have hrc : rc = maxRetries := by omega
      subst hrc
      simp [fetchRetryFuel, hall rc]
  | fuel + 1, rc, h1, h2 => by
      by_cases hlt : rc < maxRetries
      · have ih := fetchRetryFuel_allAbort maxRetries retryDelay attempts hall
          fuel (rc + 1) (by omega) (by omega)
        have hstep : fetchRetryFuel maxRetries retryDelay attempts (fuel + 1) rc =
            ((fetchRetryFuel maxRetries retryDelay attempts fuel (rc + 1)).1,
              retryDelay * 2 ^ rc +
                (fetchRetryFuel maxRetries retryDelay attempts fuel (rc + 1)).2.1,
              1 + (fetchRetryFuel maxRetries retryDelay attempts fuel (rc + 1)).2.2) := by
          simp [fetchRetryFuel, hall rc, hlt]
        rw [hstep, ih]
        have hps : (2 : Nat) ^ (rc + 1) = 2 * 2 ^ rc := by ring
        have hpow : (2 : Nat) ^ (rc + 1) ≤ 2 ^ maxRetries :=
          Nat.pow_le_pow_right (by norm_num) (by omega)
        have hdelay : retryDelay * 2 ^ rc +
            retryDelay * (2 ^ maxRetries - 2 ^ (rc + 1)) =
            retryDelay * (2 ^ maxRetries - 2 ^ rc) := by
          rw [← Nat.mul_add]
          congr 1
          omega
        have hcalls : 1 + (maxRetries - (rc + 1) + 1) = maxRetries - rc + 1 := by
          omega
        simp [hdelay, hcalls]
      · have hrc : rc = maxRetries := by omega
        subst hrc
        simp [fetchRetryFuel, hall rc, hlt]

/-! ## Remaining claims -/

/-- Claim C6: on timeout (abort) the transport retries with inserted delay
`retryDelay * 2 ^ attemptIndex` (index starting at 0) while attempts
remain; two timeouts followed by a success yield the successful result
with total delay `retryDelay * (2 ^ 0 + 2 ^ 1)` over three network calls;
timeouts on every attempt surface the typed `Request timeout` error after
`maxRetries + 1` calls. -/
theorem c6_retry_backoff {T : Type} (maxRetries retryDelay : Nat)
    (attempts : Nat → FetchResult T) (v : T) :
    (∀ retryCount fuel, retryCount < maxRetries →
      attempts retryCount = .abortErr →
      fetchRetryFuel maxRetries retryDelay attempts (fuel + 1) retryCount =
        ((fetchRetryFuel maxRetries retryDelay attempts fuel (retryCount + 1)).1,
          retryDelay * 2 ^ retryCount +
            (fetchRetryFuel maxRetries retryDelay attempts fuel (retryCount + 1)).2.1,
          1 + (fetchRetryFuel maxRetries retryDelay attempts fuel
              (retryCount + 1)).2.2)) ∧
    (2 ≤ maxRetries → attempts 0 = .abortErr → attempts 1 = .abortErr →
      attempts 2 = .ok v →
      fetchWithRetry maxRetries retryDelay attempts =
        (.ok v, retryDelay * (2 ^ 0 + 2 ^ 1), 3)) ∧
    ((∀ i, attempts i = .abortErr) →
      fetchWithRetry maxRetries retryDelay attempts =
        (.error ⟨"Request timeout", none⟩,
          retryDelay * (2 ^ maxRetries - 1), maxRetries + 1)) := by
  have key : ∀ retryCount fuel, retryCount < maxRetries →
      attempts retryCount = .abortErr →
      fetchRetryFuel maxRetries retryDelay attempts (fuel + 1) retryCount =
        ((fetchRetryFuel maxRetries retryDelay attempts fuel (retryCount + 1)).1,
          retryDelay * 2 ^ retryCount +
            (fetchRetryFuel maxRetries retryDelay attempts fuel (retryCount + 1)).2.1,
          1 + (fetchRetryFuel maxRetries retryDelay attempts fuel
              (retryCount + 1)).2.2) := by
    intro rc fuel hlt habort
    simp [fetchRetryFuel, habort, hlt]
  refine ⟨key, ?_, ?_⟩
  · intro hm h0 h1 h2
    obtain ⟨k, rfl⟩ : ∃ k, maxRetries = k + 2 := ⟨maxRetries - 2, by omega⟩
    have s1 := key 0 (k + 2) (by omega) h0
    have s2 : fetchRetryFuel (k + 2) retryDelay attempts (k + 2) 1 =
        ((fetchRetryFuel (k + 2) retryDelay attempts (k + 1) 2).1,
          retryDelay * 2 ^ 1 +
            (fetchRetryFuel (k + 2) retryDelay attempts (k + 1) 2).2.1,
          1 + (fetchRetryFuel (k + 2) retryDelay attempts (k + 1) 2).2.2) :=
      key 1 (k + 1) (by omega) h1
    have s3 : fetchRetryFuel (k + 2) retryDelay attempts (k + 1) 2 =
        (.ok v, 0, 1) := by
      simp [fetchRetryFuel, h2]
    show fetchRetryFuel (k + 2) retryDelay attempts (k + 2 + 1) 0 = _
    rw [s1, s2, s3]
    simp
    try omega
  · intro hall
    show fetchRetryFuel maxRetries retryDelay attempts (maxRetries + 1) 0 = _
    rw [fetchRetryFuel_allAbort maxRetries retryDelay attempts hall
      (maxRetries + 1) 0 (by omega) (by omega)]
    norm_num

/-- Witness for C6: with `maxRetries = 3`, `retryDelay = 1000`, two
timeouts then a success produce the success with delay 3000 over three
calls; all-timeouts produce the typed timeout error with delay 7000 over
four calls. -/
theorem c6_retry_backoff_witness :
    fetchWithRetry 3 1000
        (fun n => if n < 2 then FetchResult.abortErr else FetchResult.ok 7) =
      (.ok 7, 3000, 3) ∧
    fetchWithRetry 3 1000 (fun _ => (FetchResult.abortErr : FetchResult Nat)) =
      (.error ⟨"Request timeout", none⟩, 7000, 4) := by
  constructor
  · have h := (c6_retry_backoff 3 1000
      (fun n => if n < 2 then FetchResult.abortErr else FetchResult.ok 7) 7).2.1
      (by omega) (by decide) (by decide) (by decide)
    exact h.trans (by norm_num)
  · have h := (c6_retry_backoff 3 1000
      (fun _ => (FetchResult.abortErr : FetchResult Nat)) 7).2.2 (fun i => rfl)
    exact h.trans (by norm_num)

/-- Claim C7, as stated, is false on the code at a body that parses as
JSON but has no `message` field: the precedence rule of the claim
(`claimedHttpMessage`) picks the raw body text `[1,2]`, whereas the code
falls back to the generic `HTTP <code>: <statusText>` string. -/
theorem c7_message_rule_counterexample :
    (fetchWithRetry 3 1000 (fun _ => FetchResult.httpErr 500 "Internal Server Error"
          (ResponseBody.parsedJson "[1,2]" none)) :
        Except ApiError Nat × Nat × Nat) =
      (.error ⟨httpErrorMessage 500 "Internal Server Error"
          (ResponseBody.parsedJson "[1,2]" none), some 500⟩, 0, 1) ∧
    httpErrorMessage 500 "Internal Server Error"
        (ResponseBody.parsedJson "[1,2]" none) =
      "HTTP 500: Internal Server Error" ∧
    claimedHttpMessage 500 "Internal Server Error"
        (ResponseBody.parsedJson "[1,2]" none) = "[1,2]" ∧
    "HTTP 500: Internal Server Error" ≠ "[1,2]" := by
  exact ⟨rfl, by decide, rfl, by decide⟩

/-- Claim C7 amended: a non-2xx response fails immediately (one network
call, no inserted delay) with a typed error carrying the status code; the
message is the truthy `message` field of the JSON body when the body parses as
JSON, the generic `HTTP <code>: <statusText>` string when it parses
without a truthy `message` field, and the raw body text (falling back to
the generic string when empty) only when the body is not valid JSON. -/
theorem c7_http_no_retry_amended {T : Type} (maxRetries retryDelay : Nat)
    (attempts : Nat → FetchResult T) (status : Nat) (statusText : String)
    (body : ResponseBody)
    (h : attempts 0 = .httpErr status statusText body) :
    fetchWithRetry maxRetries retryDelay attempts =
      (.error ⟨httpErrorMessage status statusText body, some status⟩, 0, 1) ∧
    httpErrorMessage status statusText body =
      (match body with
       | .parsedJson _ (some m) =>
           if m = "" then "HTTP " ++ toString status ++ ": " ++ statusText else m
       | .parsedJson _ none => "HTTP " ++ toString status ++ ": " ++ statusText
       | .notJson t =>
           if t = "" then "HTTP " ++ toString status ++ ": " ++ statusText
           else t) := by
  constructor
  · show fetchRetryFuel maxRetries retryDelay attempts (maxRetries + 1) 0 = _
    simp [fetchRetryFuel, h]
  · rcases body with t | ⟨t, _ | m⟩ <;> rfl

/-- Witness for the amended C7 theorem at a concrete non-JSON body. -/
theorem c7_http_no_retry_amended_witness :
    fetchWithRetry 3 1000 (fun _ => (FetchResult.httpErr 404 "Not Found"
        (ResponseBody.notJson "missing") : FetchResult Nat)) =
      (.error ⟨"missing", some 404⟩, 0, 1) :=
  (c7_http_no_retry_amended 3 1000
    (fun _ => (FetchResult.httpErr 404 "Not Found"
      (ResponseBody.notJson "missing") : FetchResult Nat))
    404 "Not Found" (ResponseBody.notJson "missing") rfl).1

/-- Claim C8: after a successful poll on a snapshot with unique ids, the
collection handed to consumers is the snapshot stably sorted by ascending
priority: it is in ascending priority order, a permutation of the
snapshot, and entries of equal priority keep their relative order (the
filter at any priority value is unchanged). -/
theorem c8_priority_order (st : IncrementalState) (ns : List ClientSummary)
    (now : Int) (hids : (ns.map (·.clientId)).Nodup) :
    clientsArray (pollSuccess st ns now).1 = sortByPriority ns ∧
    (sortByPriority ns).Pairwise (fun a b => a.priority ≤ b.priority) ∧
    (sortByPriority ns).Perm ns ∧
    ∀ p : Int, (sortByPriority ns).filter (fun c => c.priority = p) =
      ns.filter (fun c => c.priority = p) := by
  refine ⟨?_, ?_, sortByPriority_perm ns, fun p => sortByPriority_filter p ns⟩
  · show jsMapValues (pollUpdate st.clients ns).1 = _
    rw [pollUpdate_fst_map _ _ hids]
    have hval : ∀ l : List ClientSummary,
        jsMapValues (l.map fun c => (c.clientId, c)) = l := by
      intro l
      induction l with
      | nil => rfl
      | cons a t ih => simp [jsMapValues] at ih ⊢; exact ih
    exact hval _
  · haveI : IsTotal ClientSummary (fun a b => a.priority ≤ b.priority) :=
      ⟨fun a b => Int.le_total a.priority b.priority⟩
    haveI : IsTrans ClientSummary (fun a b => a.priority ≤ b.priority) :=
      ⟨fun a b c hab hbc => le_trans hab hbc⟩
    exact List.sorted_insertionSort _ ns

/-- Witness for C8: priorities `[3, 1, 2]` come out in iteration order
`[1, 2, 3]`. -/
theorem c8_priority_order_witness :
    clientsArray (pollSuccess initialState
        [demoClient "a" 3, demoClient "b" 1, demoClient "c" 2] 0).1 =
      [demoClient "b" 1, demoClient "c" 2, demoClient "a" 3] := by
  have h := c8_priority_order initialState
    [demoClient "a" 3, demoClient "b" 1, demoClient "c" 2] 0 (by decide)
  exact h.1.trans (by decide)

/-- Claim C9: the missing-parameter guard shared by `fetchClientDetail`
and `fetchClientHistory` throws an `ApiError` with message `Client ID is required` and with
no status code, and `handleApiError` classifies exactly that error as
`unknown` with `canRetry = true` — not as `validation` and not as
non-retryable. -/
theorem c9_missing_id_unknown_retryable (clientId : String)
    (h : jsTrim clientId = "") :
    validateClientId clientId = some ⟨"Client ID is required", none⟩ ∧
    handleApiError (.apiErr ⟨"Client ID is required", none⟩) =
      { type := .unknown, title := "Request Failed",
        message := "Client ID is required", canRetry := true } ∧
    (handleApiError (.apiErr ⟨"Client ID is required", none⟩)).type ≠
      .validation := by
  refine ⟨?_, by decide, by decide⟩
  simp [validateClientId, h]

/-- Witness for C9 at the empty client id. -/
theorem c9_missing_id_unknown_retryable_witness :
    validateClientId "" = some ⟨"Client ID is required", none⟩ ∧
    handleApiError (.apiErr ⟨"Client ID is required", none⟩) =
      { type := .unknown, title := "Request Failed",
        message := "Client ID is required", canRetry := true } ∧
    (handleApiError (.apiErr ⟨"Client ID is required", none⟩)).type ≠
      .validation :=
  c9_missing_id_unknown_retryable "" (by decide)

/-- Claim C10: a `startTime` or `endTime` of 0 is dropped from the query
parameters exactly as if it were absent, so the URL `fetchClientHistory`
requests is identical in the two cases. -/
theorem c10_zero_time_bound_omitted :
    (∀ endTime : Option Int,
      historyParams (some 0) endTime = historyParams none endTime) ∧
    (∀ startTime : Option Int,
      historyParams startTime (some 0) = historyParams startTime none) ∧
    (∀ (enc : String → String) (baseUrl clientId : String)
        (endTime : Option Int),
      historyUrl enc baseUrl clientId (some 0) endTime =
        historyUrl enc baseUrl clientId none endTime) ∧
    (∀ (enc : String → String) (baseUrl clientId : String)
        (startTime : Option Int),
      historyUrl enc baseUrl clientId startTime (some 0) =
        historyUrl enc baseUrl clientId startTime none) := by
  refine ⟨fun e => ?_, fun s => ?_, fun enc b c e => ?_, fun enc b c s => ?_⟩ <;>
    simp [historyParams, historyUrl]
